import Mathlib

/-!
Verification of the Open-Source-Hunter worker pipeline
(`worker/index.mjs` and the Express backend), shallowly embedded in Lean.

Numeric conventions: JavaScript numbers are modelled as rationals; the
base-10 logarithm is an uninterpreted parameter `log10 : ℚ → ℚ`, and the
wall-clock day computation `Math.round((Date.now() - t) / 86400000)` is an
uninterpreted parameter `days : String → ℤ`.  The `+∞` sentinel used for a
missing update timestamp is modelled by `Option.none`.
-/

namespace OpenSourceHunter

/-- Raw repository record as received from the GitHub search API
(the entries of `data.items` consumed by `normalizeRepo`).  Optional JSON
fields are `Option`s; the nested `license` and `owner` objects are
flattened into their accessed fields. -/
structure RawRepo where
  id : Nat
  full_name : String
  html_url : String
  description : Option String
  homepage : Option String
  stargazers_count : Nat
  forks_count : Nat
  watchers_count : Nat
  open_issues_count : Nat
  language : Option String
  topics : Option (List String)
  license_spdx_id : Option String
  license_name : Option String
  pushed_at : Option String
  updated_at : Option String
  owner_login : Option String
  owner_html_url : Option String
  owner_type : Option String
  default_branch : Option String
  deriving Repr, DecidableEq

/-- The `owner` projection built by `normalizeRepo`. -/
structure Owner where
  login : Option String
  url : Option String
  type : Option String
  deriving Repr, DecidableEq

/-- The normalized, scored candidate produced by `normalizeRepo`.
`daysSinceUpdate = none` models the `Number.POSITIVE_INFINITY` sentinel. -/
structure RankedCandidate where
  id : Nat
  name : String
  url : String
  description : String
  homepage : Option String
  stars : Nat
  forks : Nat
  watchers : Nat
  openIssues : Nat
  language : Option String
  topics : List String
  license : Option String
  lastPushedAt : Option String
  daysSinceUpdate : Option ℤ
  owner : Owner
  defaultBranch : Option String
  score : ℚ
  reasons : List String
  deriving Repr, DecidableEq

/-- The search filters carried by a job payload.  `minStars = none` models
an absent (or non-finite) value. -/
structure SearchFilters where
  topic : String
  language : Option String
  minStars : Option ℚ
  onlyMaintained : Bool
  limit : Nat
  deriving Repr, DecidableEq

/-- `describeFreshness` from the worker: maps the (integer) number of days
since the last update to a human-readable bucket; `none` is the infinity
sentinel for an unknown date. -/
def describeFreshness : Option ℤ → String
  | none => ("unknown activity")
  | some d =>
    if d ≤ 7 then ("updated this week")
    else if d ≤ 30 then ("updated this month")
    else if d ≤ 90 then ("activity within the last quarter")
    else if d ≤ 180 then ("activity within the last six months")
    else if d ≤ 365 then ("activity within the last year")
    else ("no recent commits in the last year")

/-- `cleanDescription` from the worker: trim a string, defaulting a missing
value to the empty string. -/
def cleanDescription : Option String → String
  | none => ("")
  | some s => s.trim

/-- Insert a comma after every third character; used on the reversed digit
string to model `Number.prototype.toLocaleString`. -/
def commaGroups : List Char → List Char
  | a :: b :: c :: d :: rest => a :: b :: c :: ',' :: commaGroups (d :: rest)
  | l => l

/-- `n.toLocaleString()` for a non-negative integer: decimal digits grouped
in threes by commas. -/
def toLocaleString (n : Nat) : String :=
  String.mk (commaGroups (toString n).toList.reverse).reverse

/-- `Number(x.toFixed(2))`: rounding to two decimal places. -/
def round2 (q : ℚ) : ℚ := (round (q * 100) : ℤ) / 100

/-- `normalizeRepo` from the worker: derive `daysSinceUpdate`, the score and
the reasons list from a raw repository record.  `log10` and `days` stand for
`Math.log10` and the elapsed-days computation against the current clock. -/
def normalizeRepo (log10 : ℚ → ℚ) (days : String → ℤ) (repo : RawRepo) :
    RankedCandidate :=
  let updatedAt : Option String :=
    match repo.pushed_at with
    | some t => some t
    | none => repo.updated_at
  let daysSinceUpdate : Option ℤ := updatedAt.map days
  let starScore := log10 ((repo.stargazers_count : ℚ) + 1) * (25 / 10)
  let forkScore := log10 ((repo.forks_count : ℚ) + 1) * (15 / 10)
  let watcherScore := log10 ((repo.watchers_count : ℚ) + 1)
  let freshnessScore : ℚ :=
    match daysSinceUpdate with
    | some d => max 0 (3 - (d : ℚ) / 120)
    | none => 0
  let issuePenalty := log10 ((repo.open_issues_count : ℚ) + 1)
  let score := starScore + forkScore + watcherScore + freshnessScore - issuePenalty
  let reasonsRaw : List (Option String) :=
    [ (if repo.stargazers_count ≠ 0
        then some (toLocaleString repo.stargazers_count ++ " stars") else none),
      (if repo.forks_count ≠ 0
        then some (toLocaleString repo.forks_count ++ " forks") else none),
      some (describeFreshness daysSinceUpdate),
      (match repo.license_spdx_id with
        | some spdx => if spdx ≠ "" then some ("License: " ++ spdx) else none
        | none => none) ]
  let reasons := (reasonsRaw.filterMap id).filter (fun s => s ≠ "")
  { id := repo.id
    name := repo.full_name
    url := repo.html_url
    description := cleanDescription repo.description
    homepage := repo.homepage
    stars := repo.stargazers_count
    forks := repo.forks_count
    watchers := repo.watchers_count
    openIssues := repo.open_issues_count
    language := repo.language
    topics := repo.topics.getD []
    license :=
      (match repo.license_spdx_id with
        | some spdx => some spdx
        | none => repo.license_name)
    lastPushedAt := updatedAt
    daysSinceUpdate := daysSinceUpdate
    owner :=
      { login := repo.owner_login
        url := repo.owner_html_url
        type := repo.owner_type }
    defaultBranch := repo.default_branch
    score := round2 score
    reasons := reasons }

/-- The score formula exactly as the specification words it:
`2.5*log10(stars+1) + 1.5*log10(forks+1) + log10(watchers+1) + freshness -
log10(openIssues+1)` with `freshness = max(0, 3 - daysSinceUpdate/120)`,
zero for an unknown date, rounded to two decimals. -/
def scoreSpecC1 (log10 : ℚ → ℚ) (days : String → ℤ) (repo : RawRepo) : ℚ :=
  let updatedAt : Option String :=
    match repo.pushed_at with
    | some t => some t
    | none => repo.updated_at
  let freshness : ℚ :=
    match updatedAt.map days with
    | some d => max 0 (3 - (d : ℚ) / 120)
    | none => 0
  round2
    ((25 / 10) * log10 ((repo.stargazers_count : ℚ) + 1)
      + (15 / 10) * log10 ((repo.forks_count : ℚ) + 1)
      + log10 ((repo.watchers_count : ℚ) + 1)
      + freshness
      - log10 ((repo.open_issues_count : ℚ) + 1))

/-- The freshness buckets as the specification documents them, with the
strings the code actually emits for the quarter/six-month/year buckets. -/
def freshnessBucketSpec : Option ℤ → String
  | none => ("unknown activity")
  | some d =>
    if d ≤ 7 then ("updated this week")
    else if 7 < d ∧ d ≤ 30 then ("updated this month")
    else if 30 < d ∧ d ≤ 90 then ("activity within the last quarter")
    else if 90 < d ∧ d ≤ 180 then ("activity within the last six months")
    else if 180 < d ∧ d ≤ 365 then ("activity within the last year")
    else ("no recent commits in the last year")

/-- The `stars:>=...` segment of `buildGitHubQuery`: present with threshold
`Math.floor(minStars)` exactly when `minStars` is a finite number `> 0`. -/
def starsThresholdOfQuery : Option ℚ → Option ℤ
  | some m => if 0 < m then some ⌊m⌋ else none
  | none => none

/-- `buildGitHubQuery` from the worker, as the list of query segments that
are joined with spaces and URL-encoded.  `maintainedSinceIso` stands for the
ISO date `now - HUNTER_MAINTAINED_MONTH_WINDOW months`. -/
def buildGitHubQuery (payload : SearchFilters) (maintainedSinceIso : String) :
    List String :=
  let quotedTopic :=
    if payload.topic.contains ' ' then "\"" ++ payload.topic ++ "\""
    else payload.topic
  [quotedTopic ++ " in:name,description,readme"]
    ++ (match payload.language with
        | some lang => if lang ≠ "" then ["language:" ++ lang] else []
        | none => [])
    ++ (match starsThresholdOfQuery payload.minStars with
        | some t => ["stars:>=" ++ toString t]
        | none => [])
    ++ (if payload.onlyMaintained then ["pushed:>=" ++ maintainedSinceIso]
        else [])

/-- Insert a candidate into a list: it is placed after every element of
strictly greater score and before the rest, so equal-score elements keep
their relative order. -/
def insertDesc (x : RankedCandidate) : List RankedCandidate → List RankedCandidate
  | [] => [x]
  | y :: ys => if x.score < y.score then y :: insertDesc x ys else x :: y :: ys

/-- `normalized.sort((a, b) => b.score - a.score)` from `fetchRepositories`.
ECMAScript `Array.prototype.sort` is stable and returns a sequence sorted by
the comparator; the stable sorted permutation of a list is unique, and this
stable insertion sort realizes it. -/
def sortByScoreDesc : List RankedCandidate → List RankedCandidate
  | [] => []
  | x :: xs => insertDesc x (sortByScoreDesc xs)

/-- The ranking pipeline of `fetchRepositories`: normalize each fetched
item, sort by descending score, truncate to `limit`. -/
def rankProjects (log10 : ℚ → ℚ) (days : String → ℤ) (items : List RawRepo)
    (limit : Nat) : List RankedCandidate :=
  (sortByScoreDesc (items.map (normalizeRepo log10 days))).take limit

/-- The record returned by `fetchRepositories`. -/
structure FetchOutcome where
  filters : SearchFilters
  totalFetched : Nat
  projects : List RankedCandidate
  deriving Repr, DecidableEq

/-- `fetchRepositories` from the worker, with the HTTP layer abstracted:
`items` is the `data.items` array of a successful response (a non-success
response is a thrown error, modelled at the `handleJob` level). -/
def fetchRepositories (log10 : ℚ → ℚ) (days : String → ℤ)
    (payload : SearchFilters) (items : List RawRepo) : FetchOutcome :=
  { filters := payload
    totalFetched := items.length
    projects := rankProjects log10 days items payload.limit }

/-- Keep the first occurrence of each element not yet seen, dropping later
duplicates. -/
def dedupAux (seen : List String) : List String → List String
  | [] => []
  | x :: xs => if x ∈ seen then dedupAux seen xs else x :: dedupAux (x :: seen) xs

/-- Keep the first occurrence of each element, dropping later duplicates;
models iterating a JavaScript `Set` built by insertion. -/
def dedupKeepFirst (l : List String) : List String := dedupAux [] l

/-- The highlights computed inside `summarizeResult`:
`projects.flatMap(p => p.reasons.slice(0, 1)).slice(0, 3)`. -/
def summaryHighlights (projects : List RankedCandidate) : List String :=
  (projects.foldr (fun p acc => p.reasons.take 1 ++ acc) []).take 3

/-- The language set computed inside `summarizeResult`:
`new Set(projects.map(p => p.language).filter(Boolean))`, iterated in
insertion order. -/
def summaryLanguages (projects : List RankedCandidate) : List String :=
  dedupKeepFirst ((projects.filterMap (fun p => p.language)).filter (fun s => s ≠ ""))

/-- `summarizeResult` from the worker (its `totalFetched` argument is
unused by the source function and omitted here). -/
def summarizeResult (payload : SearchFilters) (projects : List RankedCandidate) :
    String :=
  if projects.length = 0 then
    "No repositories matched \"" ++ payload.topic ++ "\" with the current filters."
  else
    let languages := summaryLanguages projects
    let topReasons := String.intercalate ", " (summaryHighlights projects)
    let languageSummary :=
      if languages.length ≠ 0 then
        " Focused languages: " ++ String.intercalate ", " languages ++ "."
      else ("")
    let reasonSummary :=
      if topReasons ≠ "" then " Highlights: " ++ topReasons ++ "." else ("")
    let maintained :=
      if payload.onlyMaintained then (" that are actively maintained") else ("")
    "Found " ++ toString projects.length ++ " standout open-source project(s)"
      ++ maintained ++ " for \"" ++ payload.topic ++ "\"." ++ languageSummary
      ++ reasonSummary

/-- `needsDescription` from the worker. -/
def needsDescription (p : RankedCandidate) : Bool :=
  let value := p.description.trim.toLower
  value.length = 0 || value = "null" || value = "undefined"
    || value.startsWith ("no description")

/-- One entry of the `results` array of a Tavily response. -/
structure TavilyResult where
  content : Option String
  deriving Repr, DecidableEq

/-- A Tavily HTTP response: `ok` is `response.ok`; `answer` and `results`
are the parsed JSON body fields. -/
structure TavilyResponse where
  ok : Bool
  answer : Option String
  results : List TavilyResult
  deriving Repr, DecidableEq

/-- A `results` entry whose `content` is truthy (a non-empty string). -/
def hasContent (e : TavilyResult) : Bool :=
  match e.content with
  | some s => s ≠ ""
  | none => false

/-- `fetchDescriptionFromTavily` from the worker, with the network call
abstracted: `resp = none` models a thrown fetch/parse error (caught and
turned into `null`), `resp = some r` the parsed response. -/
def fetchDescriptionFromTavily (hasTavily : Bool) (p : RankedCandidate)
    (resp : Option TavilyResponse) : Option String :=
  if ¬hasTavily ∨ p.name = "" then none
  else
    match resp with
    | none => none
    | some r =>
      if ¬r.ok then none
      else
        let answer := (r.answer.getD "").trim
        if answer ≠ "" then some answer
        else
          match r.results.find? hasContent with
          | some e => some (e.content.getD "").trim
          | none => none

/-- The per-candidate enrichment step of `handleJob`: replace the
description only when it is needed and a truthy answer came back. -/
def enrichProject (hasTavily : Bool) (resp : Option TavilyResponse)
    (p : RankedCandidate) : RankedCandidate :=
  if ¬needsDescription p then p
  else
    match fetchDescriptionFromTavily hasTavily p resp with
    | some d => if d ≠ "" then { p with description := d } else p
    | none => p

/-- The JSON document the worker pushes onto the job's result queue.
Fields absent from the error document are `Option`s. -/
structure ResultEnvelope where
  status : String
  summary : Option String
  filters : SearchFilters
  totalFetched : Option Nat
  projects : Option (List RankedCandidate)
  generatedAt : Option String
  error : Option String
  deriving Repr, DecidableEq

/-- `handleJob` from the worker, returning the ResultEnvelope it publishes.
`fetched` is the outcome of `fetchRepositories`'s HTTP call (`Except.error`
models the thrown failure, carrying its message); `oracle` gives each
candidate's Tavily response and `now` the `generatedAt` clock reading. -/
def handleJob (log10 : ℚ → ℚ) (days : String → ℤ) (hasTavily : Bool)
    (oracle : RankedCandidate → Option TavilyResponse)
    (payload : SearchFilters) (now : String)
    (fetched : Except String (List RawRepo)) : ResultEnvelope :=
  match fetched with
  | Except.error message =>
      { status := ("error")
        summary := none
        filters := payload
        totalFetched := none
        projects := none
        generatedAt := none
        error := some message }
  | Except.ok items =>
      let outcome := fetchRepositories log10 days payload items
      let projects :=
        if hasTavily then
          outcome.projects.map (fun p => enrichProject hasTavily (oracle p) p)
        else outcome.projects
      let summary := summarizeResult payload projects
      { status := ("completed")
        summary := some summary
        filters := payload
        totalFetched := some outcome.totalFetched
        projects := some projects
        generatedAt := some now
        error := none }

/-- A parsed job document popped from the request queue: `id` and `payload`
may be absent; `some ""` models a falsy empty-string id. -/
structure JobValue where
  id : Option String
  payload : Option SearchFilters
  deriving Repr, DecidableEq

/-- One raw message popped from the request queue: either text
`JSON.parse` rejects, or a parsed job document. -/
inductive RawMessage where
  | unparseable : String → RawMessage
  | parsed : JobValue → RawMessage
  deriving Repr, DecidableEq

/-- The messages the worker loop drops with a logged warning: unparseable
text, or a job whose `id` or `payload` is falsy. -/
def malformedMessage : RawMessage → Prop
  | RawMessage.unparseable _ => True
  | RawMessage.parsed j => j.id = none ∨ j.id = some ("") ∨ j.payload = none

instance : DecidablePred malformedMessage := by
  intro m
  cases m with
  | unparseable s => exact isTrue trivial
  | parsed j => unfold malformedMessage; infer_instance

/-- The worker's environment: the abstracted clock, logarithm, Tavily
credential and per-job I/O outcomes. -/
structure WorkerEnv where
  log10 : ℚ → ℚ
  days : String → ℤ
  hasTavily : Bool
  oracle : RankedCandidate → Option TavilyResponse
  now : String
  fetchOutcome : SearchFilters → Except String (List RawRepo)

/-- One iteration of the worker loop body on a dequeued message: a
malformed message is dropped (producing no result); a well-formed job is
handled, publishing one envelope on the result queue keyed by its id. -/
def processMessage (env : WorkerEnv) : RawMessage → List (String × ResultEnvelope)
  | RawMessage.unparseable _ => []
  | RawMessage.parsed j =>
    match j.id, j.payload with
    | some i, some p =>
        if i = "" then []
        else
          [(i, handleJob env.log10 env.days env.hasTavily env.oracle p env.now
              (env.fetchOutcome p))]
    | some _, none => []
    | none, _ => []

/-- `workForever` from the worker, run over a finite trace of dequeued
messages: the list of (result-queue id, envelope) publications, in order. -/
def workForever (env : WorkerEnv) (msgs : List RawMessage) :
    List (String × ResultEnvelope) :=
  msgs.foldr (fun m acc => processMessage env m ++ acc) []

/-- The brpop timeout chosen by one iteration of `waitForResult`:
`Math.max(1, Math.ceil((deadline - now) / 1000))` seconds. -/
def brpopWaitSeconds (nowMs deadlineMs : Nat) : Nat :=
  max 1 ((deadlineMs - nowMs + 999) / 1000)

/-- The `while (Date.now() < deadline)` loop of `waitForResult` when no
result is ever published: each `brpop` sleeps its full timeout and returns
empty; returns the wall-clock time at which the loop exits and the timeout
error is thrown.  The fuel bounds the iteration count. -/
def waitLoop (deadlineMs : Nat) : Nat → Nat → Nat
  | 0, nowMs => nowMs
  | fuel + 1, nowMs =>
    if nowMs < deadlineMs then
      waitLoop deadlineMs fuel (nowMs + 1000 * brpopWaitSeconds nowMs deadlineMs)
    else nowMs

/-- Total elapsed milliseconds until `waitForResult` throws its timeout
error, for a call starting at time 0 with deadline `timeoutMs`, when no
worker ever publishes a result. -/
def waitForResultTimeoutMs (timeoutMs : Nat) : Nat :=
  waitLoop timeoutMs (timeoutMs + 1) 0

/-! Concrete sample values used to instantiate the theorems. -/

/-- A degenerate logarithm used where the value of `Math.log10` is
irrelevant. -/
def zeroLog : ℚ → ℚ := fun _ => 0

/-- A degenerate clock used where the elapsed-days value is irrelevant. -/
def zeroDays : String → ℤ := fun _ => 0

/-- Sample filters. -/
def exFilters : SearchFilters :=
  { topic := ("graph database"), language := none, minStars := none,
    onlyMaintained := false, limit := 3 }

/-- Sample filters with a minimum-star bound. -/
def exFilters5 : SearchFilters :=
  { topic := ("ai"), language := none, minStars := some 2,
    onlyMaintained := false, limit := 3 }

/-- Sample filters for the summary counterexample. -/
def exFilters2 : SearchFilters :=
  { topic := ("chat"), language := none, minStars := none,
    onlyMaintained := false, limit := 6 }

/-- A sample raw repository with five stars and no optional data. -/
def exRepo : RawRepo :=
  { id := 1, full_name := ("octo/repo"), html_url := ("https://example.com/r"),
    description := none, homepage := none, stargazers_count := 5,
    forks_count := 0, watchers_count := 0, open_issues_count := 0,
    language := none, topics := none, license_spdx_id := none,
    license_name := none, pushed_at := none, updated_at := none,
    owner_login := none, owner_html_url := none, owner_type := none,
    default_branch := none }

/-- A sample ranked candidate whose only reason is the weekly freshness
bucket. -/
def exCandA : RankedCandidate :=
  { id := 1, name := ("acme/alpha"), url := ("https://example.com/a"),
    description := (""), homepage := none, stars := 0, forks := 0,
    watchers := 0, openIssues := 0, language := none, topics := [],
    license := none, lastPushedAt := none, daysSinceUpdate := some 3,
    owner := { login := none, url := none, type := none },
    defaultBranch := none, score := 0, reasons := [("updated this week")] }

/-- A second candidate with the same first reason as `exCandA`. -/
def exCandB : RankedCandidate :=
  { exCandA with id := 2, name := ("acme/beta") }

/-- A sample worker environment whose fetches all succeed with an empty
item list. -/
def exEnv : WorkerEnv :=
  { log10 := zeroLog, days := zeroDays, hasTavily := false,
    oracle := fun _ => none, now := ("2026-01-01T00:00:00.000Z"),
    fetchOutcome := fun _ => Except.ok [] }

/-- The failure modes of one Tavily lookup: a thrown fetch error, a
non-success HTTP status, or a response with no usable answer or content. -/
def enrichFailure : Option TavilyResponse → Prop := fun resp =>
  resp = none
    ∨ ∃ r, resp = some r ∧
        (r.ok = false
          ∨ ((r.answer.getD "").trim = "" ∧ r.results.find? hasContent = none))

/-- The result-set summary sentence as the amended claim words it: for an
empty list, the no-match sentence; otherwise the count, the
actively-maintained clause exactly when requested, the distinct non-empty
languages in first-occurrence order, and as highlights the first reasons of
the projects (projects without reasons contribute none), truncated to
three, in project order and without removing repeats. -/
def summarizeSpecAmended (payload : SearchFilters)
    (projects : List RankedCandidate) : String :=
  if projects.length = 0 then
    "No repositories matched \"" ++ payload.topic ++ "\" with the current filters."
  else
    let languages :=
      dedupKeepFirst
        ((projects.filterMap (fun p => p.language)).filter (fun s => s ≠ ""))
    let highlights := (projects.filterMap (fun p => p.reasons.head?)).take 3
    let topReasons := String.intercalate ", " highlights
    let languageSummary :=
      if languages.length ≠ 0 then
        " Focused languages: " ++ String.intercalate ", " languages ++ "."
      else ("")
    let reasonSummary :=
      if topReasons ≠ "" then " Highlights: " ++ topReasons ++ "." else ("")
    let maintained :=
      if payload.onlyMaintained then (" that are actively maintained") else ("")
    "Found " ++ toString projects.length ++ " standout open-source project(s)"
      ++ maintained ++ " for \"" ++ payload.topic ++ "\"." ++ languageSummary
      ++ reasonSummary

/-! Theorems. -/

/-- C1: for every raw candidate, `normalizeRepo` computes the score
`2.5*log10(stars+1) + 1.5*log10(forks+1) + log10(watchers+1) + freshness -
log10(openIssues+1)` with `freshness = max(0, 3 - daysSinceUpdate/120)` and
`freshness = 0` when the last-update timestamp is absent, rounded to two
decimal places — stated as equality with the formula transcribed from the
specification. -/
theorem normalizeRepo_score_spec (log10 : ℚ → ℚ) (days : String → ℤ)
    (repo : RawRepo) :
    (normalizeRepo log10 days repo).score = scoreSpecC1 log10 days repo := by
  unfold normalizeRepo scoreSpecC1
  dsimp only
  congr 1
  ring

/-- Helper: the freshness description is never the empty string. -/
theorem describeFreshness_ne_empty (d : Option ℤ) : describeFreshness d ≠ "" := by
  cases d with
  | none => decide
  | some d => simp only [describeFreshness]; split_ifs <;> decide

/-- C6 (amended): the freshness buckets are exactly the documented
boundaries — at most 7 days, at most 30, at most 90, at most 180, at most
365, beyond 365, and the infinity sentinel — with the strings the code
emits, which for the quarter/six-month/year buckets read "activity within
the last ..." rather than the claim's abbreviated labels. -/
theorem describeFreshness_buckets (d : Option ℤ) :
    describeFreshness d = freshnessBucketSpec d := by
  cases d with
  | none => rfl
  | some d =>
    simp only [describeFreshness, freshnessBucketSpec]
    split_ifs <;> first | rfl | (exfalso; omega)

/-- C6 (counterexample): a candidate updated 45, 100 or 300 days ago is
described by the "activity within the last ..." strings, not by the claim's
"last quarter" / "last six months" / "last year" strings. -/
theorem describeFreshness_string_counterexample :
    describeFreshness (some 45) = ("activity within the last quarter")
      ∧ describeFreshness (some 45) ≠ ("last quarter")
      ∧ describeFreshness (some 100) ≠ ("last six months")
      ∧ describeFreshness (some 300) ≠ ("last year") := by
  refine ⟨rfl, ?_, ?_, ?_⟩ <;> decide

/-- C10: the reasons list of every normalized candidate contains the
freshness description (even the unknown-activity sentinel) and is therefore
never empty, whatever the star, fork and license fields are. -/
theorem normalizeRepo_reasons_nonempty (log10 : ℚ → ℚ) (days : String → ℤ)
    (repo : RawRepo) :
    describeFreshness (normalizeRepo log10 days repo).daysSinceUpdate
        ∈ (normalizeRepo log10 days repo).reasons
      ∧ (normalizeRepo log10 days repo).reasons ≠ [] := by
  have hmem : describeFreshness (normalizeRepo log10 days repo).daysSinceUpdate
      ∈ (normalizeRepo log10 days repo).reasons := by
    unfold normalizeRepo
    dsimp only
    rw [List.mem_filter]
    refine ⟨?_, by simpa using describeFreshness_ne_empty _⟩
    rw [List.mem_filterMap]
    refine ⟨some (describeFreshness _), ?_, rfl⟩
    exact List.mem_cons_of_mem _ (List.mem_cons_of_mem _ (List.mem_cons_self _ _))
  exact ⟨hmem, List.ne_nil_of_mem hmem⟩

/-- Helper: membership in an insertion. -/
theorem mem_insertDesc {x a : RankedCandidate} {l : List RankedCandidate} :
    a ∈ insertDesc x l ↔ a = x ∨ a ∈ l := by
  induction l with
  | nil => simp [insertDesc]
  | cons y ys ih =>
    simp only [insertDesc]
    split_ifs with h
    · rw [List.mem_cons, ih, List.mem_cons]
      tauto
    · rw [List.mem_cons, List.mem_cons]

/-- Helper: insertion preserves descending sortedness. -/
theorem pairwise_insertDesc {x : RankedCandidate} {l : List RankedCandidate}
    (h : l.Pairwise (fun a b => b.score ≤ a.score)) :
    (insertDesc x l).Pairwise (fun a b => b.score ≤ a.score) := by
  induction l with
  | nil => simp [insertDesc]
  | cons y ys ih =>
    rcases List.pairwise_cons.mp h with ⟨hy, hys⟩
    simp only [insertDesc]
    split_ifs with hlt
    · refine List.pairwise_cons.mpr ⟨?_, ih hys⟩
      intro b hb
      rcases mem_insertDesc.mp hb with rfl | hb
      · exact le_of_lt hlt
      · exact hy b hb
    · refine List.pairwise_cons.mpr ⟨?_, h⟩
      intro b hb
      rcases List.mem_cons.mp hb with rfl | hb
      · exact le_of_not_lt hlt
      · exact le_trans (hy b hb) (le_of_not_lt hlt)

/-- Helper: the sort produces a descending-score sequence. -/
theorem sortByScoreDesc_pairwise (l : List RankedCandidate) :
    (sortByScoreDesc l).Pairwise (fun a b => b.score ≤ a.score) := by
  induction l with
  | nil => simp [sortByScoreDesc]
  | cons x xs ih => exact pairwise_insertDesc ih

/-- Helper: inserting commutes with filtering on a fixed score value,
because an inserted element only moves past strictly greater scores. -/
theorem filter_insertDesc (s : ℚ) (x : RankedCandidate)
    (l : List RankedCandidate) :
    (insertDesc x l).filter (fun c => c.score = s)
      = ((x :: l).filter (fun c => c.score = s)) := by
  induction l with
  | nil => rfl
  | cons y ys ih =>
    simp only [insertDesc]
    split_ifs with hlt
    · by_cases hx : x.score = s
      · have hy : ¬(y.score = s) := by
          rw [← hx]
          exact ne_of_gt hlt
        simp [List.filter_cons, hx, hy, ih]
      · simp [List.filter_cons, hx, ih]
    · rfl

/-- Helper: sorting does not change the subsequence of any fixed score. -/
theorem filter_sortByScoreDesc (s : ℚ) (l : List RankedCandidate) :
    (sortByScoreDesc l).filter (fun c => c.score = s)
      = l.filter (fun c => c.score = s) := by
  induction l with
  | nil => rfl
  | cons x xs ih =>
    simp only [sortByScoreDesc]
    rw [filter_insertDesc s x (sortByScoreDesc xs)]
    simp [List.filter_cons, ih]

/-- Helper: a prefix of a list filters to a prefix of its filtering. -/
theorem filter_take_prefix (p : RankedCandidate → Bool) (n : Nat)
    (l : List RankedCandidate) :
    (l.take n).filter p <+: l.filter p :=
  ⟨(l.drop n).filter p, by rw [← List.filter_append, List.take_append_drop]⟩

/-- C2: the projects sequence returned by `fetchRepositories` is sorted by
score in descending order (a strictly greater score always appears
earlier), and for every score value, the candidates carrying that score
appear in their original fetch order (the truncated sorted list filters to
a prefix of the normalized fetch order's filtering): the sort is stable. -/
theorem rankProjects_sorted_stable (log10 : ℚ → ℚ) (days : String → ℤ)
    (payload : SearchFilters) (items : List RawRepo) :
    ((fetchRepositories log10 days payload items).projects).Pairwise
        (fun a b => b.score ≤ a.score)
      ∧ ∀ s : ℚ,
        ((fetchRepositories log10 days payload items).projects).filter
            (fun c => c.score = s)
          <+: (items.map (normalizeRepo log10 days)).filter
            (fun c => c.score = s) := by
  constructor
  · exact (sortByScoreDesc_pairwise
      (items.map (normalizeRepo log10 days))).sublist
        (List.take_sublist _ _)
  · intro s
    have h := filter_take_prefix (fun c => decide (c.score = s)) payload.limit
      (sortByScoreDesc (items.map (normalizeRepo log10 days)))
    rw [filter_sortByScoreDesc] at h
    exact h

/-- C3 (counterexample): the envelope published for a failed job carries
the error text and the filters but no `generatedAt` timestamp, refuting the
claim that every published envelope contains one. -/
theorem handleJob_error_generatedAt_missing :
    (handleJob (fun _ => 0) (fun _ => 0) false (fun _ => none) exFilters
        ("2026-01-01T00:00:00.000Z")
        (Except.error ("GitHub search failed (500): upstream"))).generatedAt
        = none
      ∧ (handleJob (fun _ => 0) (fun _ => 0) false (fun _ => none) exFilters
        ("2026-01-01T00:00:00.000Z")
        (Except.error ("GitHub search failed (500): upstream"))).status
        = ("error") :=
  ⟨rfl, rfl⟩

/-- C3 (amended): every envelope published by `handleJob` carries `status`
and an echo of the input filters; on success it additionally carries
`summary`, `totalFetched`, `generatedAt`, and `projects` of length at most
`filters.limit`; on error it carries the failure's description as error
text, but — unlike the claim — no `generatedAt` timestamp. -/
theorem handleJob_envelope_fields (log10 : ℚ → ℚ) (days : String → ℤ)
    (hasTavily : Bool) (oracle : RankedCandidate → Option TavilyResponse)
    (payload : SearchFilters) (now : String) :
    (∀ message,
      handleJob log10 days hasTavily oracle payload now (Except.error message)
        = { status := ("error"), summary := none, filters := payload,
            totalFetched := none, projects := none, generatedAt := none,
            error := some message })
    ∧ (∀ items : List RawRepo, ∃ s ps,
        handleJob log10 days hasTavily oracle payload now (Except.ok items)
          = { status := ("completed"), summary := some s, filters := payload,
              totalFetched := some items.length, projects := some ps,
              generatedAt := some now, error := none }
        ∧ ps.length ≤ payload.limit) := by
  constructor
  · intro message
    rfl
  · intro items
    refine ⟨_, _, rfl, ?_⟩
    cases h : hasTavily <;>
      simp [h, fetchRepositories, rankProjects, List.length_take]

/-- Helper: a failed Tavily lookup yields no description. -/
theorem fetchDescription_none_of_failure (p : RankedCandidate)
    (resp : Option TavilyResponse) (h : enrichFailure resp) :
    fetchDescriptionFromTavily true p resp = none := by
  unfold fetchDescriptionFromTavily
  split_ifs with hname
  · rfl
  · rcases h with rfl | ⟨r, rfl, hr⟩
    · rfl
    · rcases hr with hok | ⟨ha, hf⟩
      · simp [hok]
      · by_cases hok2 : r.ok
        · simp [hok2, ha, hf]
        · simp [hok2]

/-- C4: enrichment never fails the job.  A thrown fetch error, a
non-success HTTP status or a response with no usable answer or content
leaves the candidate's description unchanged; and with no Tavily
credential configured the enrichment step is skipped entirely, the job
completing with status "completed" and the un-enriched projects (original,
possibly empty, descriptions) in the envelope. -/
theorem enrichment_never_fails_job (log10 : ℚ → ℚ) (days : String → ℤ)
    (oracle : RankedCandidate → Option TavilyResponse)
    (payload : SearchFilters) (now : String) (items : List RawRepo)
    (resp : Option TavilyResponse) (p : RankedCandidate)
    (h : enrichFailure resp) :
    (enrichProject true resp p).description = p.description
    ∧ (handleJob log10 days false oracle payload now
        (Except.ok items)).status = ("completed")
    ∧ (handleJob log10 days false oracle payload now
        (Except.ok items)).projects
        = some (rankProjects log10 days items payload.limit) := by
  refine ⟨?_, rfl, rfl⟩
  unfold enrichProject
  split_ifs with hneed
  · rw [fetchDescription_none_of_failure p resp h]
  · rfl

/-- Witness for C4 at a concrete candidate and a thrown fetch error. -/
theorem enrichment_never_fails_job_witness :
    (enrichProject true none (normalizeRepo zeroLog zeroDays exRepo)).description
        = (normalizeRepo zeroLog zeroDays exRepo).description
      ∧ (handleJob zeroLog zeroDays false (fun _ => none) exFilters ("t")
          (Except.ok [])).status = ("completed") :=
  ⟨(enrichment_never_fails_job zeroLog zeroDays (fun _ => none) exFilters ("t")
      [] none (normalizeRepo zeroLog zeroDays exRepo) (Or.inl rfl)).1,
   (enrichment_never_fails_job zeroLog zeroDays (fun _ => none) exFilters ("t")
      [] none (normalizeRepo zeroLog zeroDays exRepo) (Or.inl rfl)).2.1⟩

/-- Helper: sorting is a permutation at the level of membership. -/
theorem mem_sortByScoreDesc {a : RankedCandidate} {l : List RankedCandidate} :
    a ∈ sortByScoreDesc l ↔ a ∈ l := by
  induction l with
  | nil => simp [sortByScoreDesc]
  | cons x xs ih =>
    simp only [sortByScoreDesc]
    rw [mem_insertDesc, List.mem_cons, ih]

/-- Helper: enrichment only rewrites the description, never the stars. -/
theorem enrichProject_stars (h : Bool) (resp : Option TavilyResponse)
    (p : RankedCandidate) : (enrichProject h resp p).stars = p.stars := by
  unfold enrichProject
  split_ifs with h1
  · cases hfd : fetchDescriptionFromTavily h p resp with
    | none => rfl
    | some d =>
      simp only [hfd]
      split_ifs <;> rfl
  · rfl

/-- Helper: a lower bound on the stars of every fetched item survives
normalization, sorting and truncation. -/
theorem rankProjects_stars (log10 : ℚ → ℚ) (days : String → ℤ)
    (items : List RawRepo) (limit N : Nat)
    (h : ∀ repo ∈ items, N ≤ repo.stargazers_count) :
    ∀ c ∈ rankProjects log10 days items limit, N ≤ c.stars := by
  intro c hc
  have hc2 : c ∈ sortByScoreDesc (items.map (normalizeRepo log10 days)) :=
    List.take_subset _ _ hc
  have hc3 : c ∈ items.map (normalizeRepo log10 days) :=
    mem_sortByScoreDesc.mp hc2
  rcases List.mem_map.mp hc3 with ⟨repo, hrepo, rfl⟩
  exact h repo hrepo

/-- C5: when the filters carry `minStars = N` (a natural number) and the
candidate source honors the `stars:>=⌊N⌋` query segment that
`buildGitHubQuery` emits (the worker itself performs no star filtering),
every candidate in the published envelope has at least `N` stars. -/
theorem minStars_lower_bound (log10 : ℚ → ℚ) (days : String → ℤ)
    (hasTavily : Bool) (oracle : RankedCandidate → Option TavilyResponse)
    (payload : SearchFilters) (now : String) (items : List RawRepo) (N : Nat)
    (hMin : payload.minStars = some (N : ℚ))
    (hHonors : ∀ repo ∈ items, ∀ t,
      starsThresholdOfQuery payload.minStars = some t
        → t ≤ (repo.stargazers_count : ℤ))
    (c : RankedCandidate)
    (hc : c ∈ (handleJob log10 days hasTavily oracle payload now
        (Except.ok items)).projects.getD []) :
    N ≤ c.stars := by
  have hstars : ∀ repo ∈ items, N ≤ repo.stargazers_count := by
    intro repo hrepo
    rcases Nat.eq_zero_or_pos N with rfl | hN
    · exact Nat.zero_le _
    · have hpos : (0 : ℚ) < (N : ℚ) := by exact_mod_cast hN
      have hthr : starsThresholdOfQuery payload.minStars = some (N : ℤ) := by
        rw [hMin]
        simp only [starsThresholdOfQuery]
        rw [if_pos hpos, Int.floor_natCast]
      have := hHonors repo hrepo (N : ℤ) hthr
      exact_mod_cast this
  have hbase : ∀ d ∈ rankProjects log10 days items payload.limit, N ≤ d.stars :=
    rankProjects_stars log10 days items payload.limit N hstars
  cases hT : hasTavily with
  | false =>
    have hc2 : c ∈ rankProjects log10 days items payload.limit := by
      simpa [handleJob, hT, fetchRepositories] using hc
    exact hbase c hc2
  | true =>
    have hc2 : c ∈ (rankProjects log10 days items payload.limit).map
        (fun p => enrichProject true (oracle p) p) := by
      simpa [handleJob, hT, fetchRepositories] using hc
    rcases List.mem_map.mp hc2 with ⟨p, hp, rfl⟩
    rw [enrichProject_stars]
    exact hbase p hp

/-- Witness for C5: with `minStars = 2` and a source honoring the query,
the single returned candidate has at least two stars. -/
theorem minStars_lower_bound_witness :
    2 ≤ (normalizeRepo zeroLog zeroDays exRepo).stars := by
  refine minStars_lower_bound zeroLog zeroDays false (fun _ => none) exFilters5
    ("t") [exRepo] 2 rfl ?_ (normalizeRepo zeroLog zeroDays exRepo) ?_
  · intro repo hrepo t ht
    have hrepo2 : repo = exRepo := by simpa using hrepo
    subst hrepo2
    have ht2 : t = 2 := by
      unfold starsThresholdOfQuery exFilters5 at ht
      norm_num at ht
      omega
    subst ht2
    decide
  · exact List.mem_singleton.mpr rfl

/-- Helper: a malformed dequeued message produces no publication. -/
theorem processMessage_malformed (env : WorkerEnv) (m : RawMessage)
    (hm : malformedMessage m) : processMessage env m = [] := by
  cases m with
  | unparseable s => rfl
  | parsed jj =>
    obtain ⟨jid, jpay⟩ := jj
    cases jid with
    | none => cases jpay <;> rfl
    | some i2 =>
      cases jpay with
      | none => rfl
      | some p2 =>
        rcases hm with h1 | h1 | h1
        · exact absurd h1 (by simp)
        · have h2 : i2 = "" := by simpa using h1
          simp [processMessage, h2]
        · exact absurd h1 (by simp)

/-- C7: the worker drops a malformed request (unparseable JSON, or missing
or falsy `id`/`payload`) without publishing any result for it, and the
dequeue loop continues: on a trace beginning with the malformed message
followed by a well-formed job, the publications are exactly those of the
trace without the malformed message, the well-formed job's envelope is
published under its id, and when its fetch succeeds that envelope has
status "completed". -/
theorem malformed_job_isolation (env : WorkerEnv) (m : RawMessage)
    (j : JobValue) (i : String) (p : SearchFilters) (rest : List RawMessage)
    (hm : malformedMessage m) (hi : j.id = some i) (hne : i ≠ "")
    (hp : j.payload = some p) :
    processMessage env m = []
    ∧ workForever env (m :: RawMessage.parsed j :: rest)
        = (i, handleJob env.log10 env.days env.hasTavily env.oracle p env.now
            (env.fetchOutcome p)) :: workForever env rest
    ∧ ∀ items : List RawRepo, env.fetchOutcome p = Except.ok items
        → (handleJob env.log10 env.days env.hasTavily env.oracle p env.now
            (env.fetchOutcome p)).status = ("completed") := by
  have hpm := processMessage_malformed env m hm
  obtain ⟨jid, jpay⟩ := j
  simp only at hi hp
  subst hi
  subst hp
  refine ⟨hpm, ?_, ?_⟩
  · have hexp : workForever env (m :: RawMessage.parsed ⟨some i, some p⟩ :: rest)
        = processMessage env m
          ++ (processMessage env (RawMessage.parsed ⟨some i, some p⟩)
            ++ workForever env rest) := rfl
    rw [hexp, hpm]
    simp [processMessage, hne]
  · intro items heq
    rw [heq]
    rfl

/-- Witness for C7: an unparseable message followed by a well-formed job
publishes exactly the well-formed job's envelope. -/
theorem malformed_job_isolation_witness :
    processMessage exEnv (RawMessage.unparseable ("not json")) = []
    ∧ workForever exEnv
        [RawMessage.unparseable ("not json"),
          RawMessage.parsed { id := some ("job-1"), payload := some exFilters }]
      = [(("job-1"),
          handleJob exEnv.log10 exEnv.days exEnv.hasTavily exEnv.oracle
            exFilters exEnv.now (exEnv.fetchOutcome exFilters))] := by
  have h := malformed_job_isolation exEnv (RawMessage.unparseable ("not json"))
    { id := some ("job-1"), payload := some exFilters } ("job-1") exFilters []
    trivial rfl (by decide) rfl
  exact ⟨h.1, h.2.1⟩

/-- Helper: the wait loop exits as soon as the clock passed the deadline. -/
theorem waitLoop_exit (deadlineMs fuel nowMs : Nat)
    (h : ¬nowMs < deadlineMs) : waitLoop deadlineMs fuel nowMs = nowMs := by
  cases fuel with
  | zero => rfl
  | succ f => simp [waitLoop, h]

/-- Helper: with no result ever arriving, exactly one blocking pop runs,
sleeping the deadline rounded up to whole seconds. -/
theorem waitForResult_elapsed (t : Nat) (ht : 0 < t) :
    waitForResultTimeoutMs t = 1000 * ((t + 999) / 1000) := by
  unfold waitForResultTimeoutMs
  obtain ⟨k, rfl⟩ : ∃ k, t = k + 1 := ⟨t - 1, by omega⟩
  rw [show k + 1 + 1 = (k + 1) + 1 from rfl]
  simp only [waitLoop]
  rw [if_pos ht]
  have h1 : 1 ≤ (k + 1 - 0 + 999) / 1000 := by omega
  have hmax : brpopWaitSeconds 0 (k + 1) = (k + 1 - 0 + 999) / 1000 := by
    unfold brpopWaitSeconds
    exact Nat.max_eq_right h1
  have hbig : ¬(0 + 1000 * brpopWaitSeconds 0 (k + 1)) < k + 1 := by
    rw [hmax]
    omega
  rw [if_neg hbig, hmax]
  omega

/-- C8 (counterexample): with a 500 ms deadline and no worker running, the
await loop's single blocking pop sleeps one whole second (the store's
blocking primitive is second-granular), so the call fails only after
1000 ms — not under 600 ms as the claim states. -/
theorem waitForResult_overrun_counterexample :
    waitForResultTimeoutMs 500 = 1000 ∧ ¬waitForResultTimeoutMs 500 < 600 := by
  constructor
  · rw [waitForResult_elapsed 500 (by omega)]
  · rw [waitForResult_elapsed 500 (by omega)]
    omega

/-- C8 (amended): if no result arrives before the caller's deadline, the
await operation fails with a timeout, and the overrun is bounded by the
blocking pop's one-second granularity: the elapsed time is at least the
deadline and less than the deadline plus 1000 ms (for a 500 ms deadline,
exactly 1000 ms). -/
theorem waitForResult_timeout_bounds (t : Nat) (ht : 0 < t) :
    t ≤ waitForResultTimeoutMs t ∧ waitForResultTimeoutMs t < t + 1000 := by
  rw [waitForResult_elapsed t ht]
  have := Nat.div_add_mod (t + 999) 1000
  have := Nat.mod_lt (t + 999) (show 0 < 1000 by omega)
  omega

/-- Witness for C8 at the claim's 500 ms deadline. -/
theorem waitForResult_timeout_bounds_witness :
    500 ≤ waitForResultTimeoutMs 500 ∧ waitForResultTimeoutMs 500 < 500 + 1000 :=
  waitForResult_timeout_bounds 500 (by omega)

/-- Helper: taking the first reason of each project (projects without
reasons contributing nothing) is filtering by the head. -/
theorem firstReasons_eq (projects : List RankedCandidate) :
    projects.foldr (fun p acc => p.reasons.take 1 ++ acc) []
      = projects.filterMap (fun p => p.reasons.head?) := by
  induction projects with
  | nil => rfl
  | cons p ps ih =>
    simp only [List.foldr_cons, List.filterMap_cons]
    cases hr : p.reasons with
    | nil => simpa [hr] using ih
    | cons a as => simpa [hr] using ih

/-- C9 (counterexample): two projects sharing the first reason "updated
this week" produce a summary whose highlights repeat that reason — the
first-reasons are not deduplicated, refuting the claim's "distinct
first-reasons". -/
theorem summary_highlights_counterexample :
    summaryHighlights [exCandA, exCandB]
        = [("updated this week"), ("updated this week")]
      ∧ ¬(summaryHighlights [exCandA, exCandB]).Nodup
      ∧ summarizeResult exFilters2 [exCandA, exCandB]
        = ("Found 2 standout open-source project(s) for \"chat\"."
            ++ " Highlights: updated this week, updated this week.") := by
  refine ⟨rfl, by decide, ?_⟩
  decide

/-- C9 (amended): the summary sentence states, for an empty project list,
that nothing matched the topic under the current filters; otherwise it
states the project count, mentions "actively maintained" exactly when the
`onlyMaintained` filter was requested, lists the distinct non-empty
primary languages in first-occurrence order, and lists as highlights the
first reasons of up to the first three projects in project order — kept as
computed, without removing duplicates. -/
theorem summarizeResult_amended_spec (payload : SearchFilters)
    (projects : List RankedCandidate) :
    summarizeResult payload projects = summarizeSpecAmended payload projects := by
  unfold summarizeResult summarizeSpecAmended summaryHighlights summaryLanguages
  rw [firstReasons_eq]

end OpenSourceHunter
